import Mathlib

/-!
Verification development for the chialab/sveltekit-utils cache and session
layer.  The definitions below are shallow embeddings of the TypeScript
source: the jitter module and S3Cache from the utils/S3 source file, the
Map-based InMemoryCache and the abstract BaseCache.remember from
src/lib/server/cache, and the Session class from
packages/utils/src/lib/server/session.ts.  Numbers that the code handles as
JavaScript floats (timestamps, TTLs, Math.random samples) are modelled as
rationals; Math.random() is made explicit as a sample argument r with
0 <= r < 1.
-/

/-! ## Jitter module (createJitter and friends, utils/misc) -/

/-- A jitter function. In the source a JitterFn is value -> number that may
consume Math.random() internally; the model makes the consumed random sample
an explicit first argument. -/
def RandJitterFn : Type := ℚ → ℚ → ℚ

/-- Argument accepted by createJitter: either a policy name (the JitterMode
enum values are the strings "none", "full", "equal"; any other string is an
unknown policy) or a caller-supplied jitter function. -/
inductive JitterArg where
  | mode (name : String)
  | fn (f : ℚ → ℚ → ℚ)

/-- The JitterMode.None entry of the jitter table: the identity. -/
def jitterNone : ℚ → ℚ → ℚ := fun _ x => x

/-- The JitterMode.Full entry: Math.random() * value. -/
def jitterFull : ℚ → ℚ → ℚ := fun r x => r * x

/-- The JitterMode.Equal entry: ((1 + Math.random()) * value) / 2. -/
def jitterEqual : ℚ → ℚ → ℚ := fun r x => (1 + r) * x / 2

/-- The jitter lookup table keyed by the enum string values. Lookup of an
unknown name yields none, matching a failed property access. -/
def jitterTable (name : String) : Option (ℚ → ℚ → ℚ) :=
  if name = "none" then some jitterNone
  else if name = "full" then some jitterFull
  else if name = "equal" then some jitterEqual
  else none

/-- createJitter: a function argument is returned unchanged; a mode name is
looked up in the table, falling back to the None entry. -/
def createJitter : JitterArg → (ℚ → ℚ → ℚ)
  | JitterArg.fn f => f
  | JitterArg.mode m => (jitterTable m).getD jitterNone

/-- Math.round as used by S3Cache.set: round half toward positive infinity. -/
def jsRound (x : ℚ) : ℤ := Int.floor (x + 1 / 2)

/-! ## S3Cache.clearPattern glob-to-regex translation

The source builds a regular expression from the glob pattern in two string
replacements and matches it against every (prefix-stripped) key:
first every regex metacharacter (including the asterisk) is prefixed with a
backslash, then every asterisk character is replaced by the two characters
dot and asterisk, and the result is wrapped in the anchors caret and dollar.
The anchors are modelled by the matcher requiring a full-string match. -/

/-- Characters escaped by the first replacement in S3Cache.clearPattern. -/
def reSpecialChars : List Char :=
  ['.', '*', '+', '?', '^', '$', '\x7b', '\x7d', '(', ')', '|', '[', ']', '\\']

/-- First replacement: prefix every regex metacharacter with a backslash. -/
def escapeRe (p : List Char) : List Char :=
  p.flatMap fun c => if reSpecialChars.contains c then ['\\', c] else [c]

/-- Second replacement: expand every asterisk character into dot-asterisk. -/
def starReplace (p : List Char) : List Char :=
  p.flatMap fun c => if c = '*' then ['.', '*'] else [c]

/-- A regex atom of the fragment produced by the translation: the dot
wildcard or a literal character. -/
inductive RAtom where
  | any
  | lit (c : Char)
deriving DecidableEq

/-- Parse the produced regex text into atoms, each with a flag recording a
postfix asterisk quantifier: a backslash escapes the next character into a
literal, a bare dot is the wildcard, anything else is a literal. -/
def parseRegex : List Char → List (RAtom × Bool)
  | [] => []
  | '\\' :: c :: '*' :: rest => (RAtom.lit c, true) :: parseRegex rest
  | '\\' :: c :: rest => (RAtom.lit c, false) :: parseRegex rest
  | '.' :: '*' :: rest => (RAtom.any, true) :: parseRegex rest
  | '.' :: rest => (RAtom.any, false) :: parseRegex rest
  | c :: '*' :: rest => (RAtom.lit c, true) :: parseRegex rest
  | c :: rest => (RAtom.lit c, false) :: parseRegex rest

/-- Does an atom match one character. -/
def atomMatch : RAtom → Char → Bool
  | RAtom.any, _ => true
  | RAtom.lit c, d => c = d

/-- Matching of one starred atom: try the continuation on every suffix
reachable by consuming characters the atom matches. -/
def starLoop (a : RAtom) (f : List Char → Bool) : List Char → Bool
  | [] => f []
  | c :: cs => f (c :: cs) || (atomMatch a c && starLoop a f cs)

/-- Anchored matching of a sequence of (atom, starred) tokens against a
string, the semantics of the constructed regex. -/
def reMatch : List (RAtom × Bool) → List Char → Bool
  | [], s => s.isEmpty
  | (a, false) :: ps, s =>
      match s with
      | [] => false
      | c :: cs => atomMatch a c && reMatch ps cs
  | (a, true) :: ps, s => starLoop a (reMatch ps) s

/-- The predicate S3Cache.clearPattern uses to select keys for deletion:
the key (already prefix-stripped) is tested against the regex built from
the pattern. -/
def s3PatternTest (pattern key : String) : Bool :=
  reMatch (parseRegex (starReplace (escapeRe pattern.data))) key.data

/-- Matching of a glob asterisk: try the continuation on every suffix. -/
def globStar (f : List Char → Bool) : List Char → Bool
  | [] => f []
  | c :: cs => f (c :: cs) || globStar f cs

/-- Glob semantics as the specification states them: an asterisk matches any
run of characters, every other character matches itself literally, and the
pattern is anchored at both ends. -/
def globMatch : List Char → List Char → Bool
  | [], s => s.isEmpty
  | '*' :: ps, s => globStar (globMatch ps) s
  | p :: ps, s =>
      match s with
      | [] => false
      | c :: cs => (p = c) && globMatch ps cs

/-! ## String helpers

JavaScript string primitives used by the cache code, modelled on the
character list underlying a Lean string. -/

/-- JavaScript String.prototype.startsWith. -/
def strStartsWith (s p : String) : Bool := List.isPrefixOf p.data s.data

/-- JavaScript String.prototype.substring(n): drop the first n characters. -/
def strDrop (s : String) (n : Nat) : String := String.mk (s.data.drop n)

/-- JavaScript String.prototype.length. -/
def strLen (s : String) : Nat := s.data.length

/-! ## InMemoryCache (Map-based backend in src/lib/server/cache)

The inner Map is modelled as an association list in insertion order with
unique keys; mapSet overwrites in place or appends, mapDelete removes,
mapGet looks up, exactly like the Map operations the source uses.  The
deferred housekeeping pass scheduled by set runs off the synchronous call
path (setImmediate) and is not part of the synchronous state transition
modelled here. -/

/-- The ValueWrapper record stored in the Map: the value together with the
absolute expiration timestamp in epoch milliseconds (undefined when the
entry never expires). -/
structure ValueWrapper (V : Type) where
  value : V
  expire : Option ℚ
deriving DecidableEq

/-- The inner Map, as an association list in insertion order. -/
abbrev Store (V : Type) := List (String × ValueWrapper V)

/-- Map.prototype.get. -/
def mapGet {V : Type} : Store V → String → Option (ValueWrapper V)
  | [], _ => none
  | (k2, w) :: rest, k => if k2 = k then some w else mapGet rest k

/-- Map.prototype.set: overwrite in place, else append. -/
def mapSet {V : Type} : Store V → String → ValueWrapper V → Store V
  | [], k, w => [(k, w)]
  | (k2, w2) :: rest, k, w =>
      if k2 = k then (k, w) :: rest else (k2, w2) :: mapSet rest k w

/-- Map.prototype.delete. -/
def mapDelete {V : Type} (s : Store V) (k : String) : Store V :=
  s.filter fun p => p.1 ≠ k

/-- The InMemoryCacheOptions record. -/
structure MemOpts where
  keyPfx : Option String
  defaultTTL : Option ℚ
  defaultJitter : Option JitterArg
  maxItems : Option Nat

/-- InMemoryCache.#key: prepend the configured key prefix (empty default). -/
def memKey (o : MemOpts) (k : String) : String := o.keyPfx.getD "" ++ k

/-- InMemoryCache.#stripPrefix: undo memKey, none when the stored key does
not lie in this cache's namespace. -/
def stripPfx (o : MemOpts) (k : String) : Option String :=
  let p := o.keyPfx.getD ""
  if strStartsWith k p then some (strDrop k (strLen p)) else none

/-- InMemoryCache.#isValid: an entry without expire never expires; otherwise
it is valid while expire is at least the current time. -/
def isValid {V : Type} (w : ValueWrapper V) (now : ℚ) : Bool :=
  match w.expire with
  | none => true
  | some e => now ≤ e

/-- InMemoryCache.get: look up under the prefixed key; a hit that is no
longer valid is deleted and reported absent; a valid hit returns its value
and leaves the store untouched. -/
def memGet {V : Type} (o : MemOpts) (now : ℚ) (k : String) (s : Store V) :
    Option V × Store V :=
  match mapGet s (memKey o k) with
  | none => (none, s)
  | some w =>
      if isValid w now then (some w.value, s)
      else (none, mapDelete s (memKey o k))

/-- The absolute expiration InMemoryCache.set records: the effective ttl is
the argument or the instance default; when present, the jitter function
built from the jitter argument, the instance default, or JitterMode.None is
applied to the ttl converted to milliseconds and added to the current time. -/
def memExpire (o : MemOpts) (jArg : Option JitterArg) (r now : ℚ)
    (ttl : Option ℚ) : Option ℚ :=
  let ttl2 := match ttl with | some t => some t | none => o.defaultTTL
  let jfn := createJitter ((match jArg with
    | some j => some j
    | none => o.defaultJitter).getD (JitterArg.mode "none"))
  match ttl2 with
  | some t => some (now + jfn r (t * 1000))
  | none => none

/-- InMemoryCache.set: store the value under the prefixed key together with
the expiration computed once, now.  (The housekeeping pass the source then
schedules is asynchronous and not part of this synchronous transition.) -/
def memSet {V : Type} (o : MemOpts) (jArg : Option JitterArg) (r now : ℚ)
    (k : String) (v : V) (ttl : Option ℚ) (s : Store V) : Store V :=
  mapSet s (memKey o k) ⟨v, memExpire o jArg r now ttl⟩

/-- InMemoryCache.delete. -/
def memDelete {V : Type} (o : MemOpts) (k : String) (s : Store V) : Store V :=
  mapDelete s (memKey o k)

/-- InMemoryCache.keys: iterate the Map keys in order, keep those in this
cache's namespace stripped of the instance prefix, and of those the ones
starting with the requested enumeration prefix.  No expiration check is
performed here. -/
def memKeys {V : Type} (o : MemOpts) (pfx : Option String) (s : Store V) :
    List String :=
  ((s.map Prod.fst).filterMap (stripPfx o)).filter
    fun k => strStartsWith k (pfx.getD "")

/-- InMemoryCache.child: same store, options copied with the key prefix
replaced by the parent-prefixed child prefix. -/
def memChild (o : MemOpts) (pfx : String) : MemOpts :=
  { o with keyPfx := some (memKey o pfx) }

/-! ## S3Cache (object-store backend) -/

/-- The S3CacheOptions record. -/
structure S3Opts where
  bucket : String
  keyPfx : Option String
  defaultTTL : Option ℚ
  defaultJitter : Option JitterArg

/-- S3Cache.#buildKey. -/
def s3BuildKey (o : S3Opts) (k : String) : String := o.keyPfx.getD "" ++ k

/-- The expires-at value S3Cache.set computes: the effective ttl is the
argument or the instance default; when present, the jitter function is
applied to the ttl as-is and the Math.round of the result is added to
Date.now().  Note the absence of any seconds-to-milliseconds conversion. -/
def s3ExpiresAt (o : S3Opts) (jArg : Option JitterArg) (r : ℚ) (now : ℤ)
    (ttl : Option ℚ) : Option ℤ :=
  let ttl2 := match ttl with | some t => some t | none => o.defaultTTL
  let jfn := createJitter ((match jArg with
    | some j => some j
    | none => o.defaultJitter).getD (JitterArg.mode "none"))
  match ttl2 with
  | some t => some (now + jsRound (jfn r t))
  | none => none

/-- The expires-at metadata field S3Cache.set attaches to the stored object:
present exactly when an expiry was computed and is truthy (nonzero). -/
def s3SetMetadata (o : S3Opts) (jArg : Option JitterArg) (r : ℚ) (now : ℤ)
    (ttl : Option ℚ) : Option ℤ :=
  match s3ExpiresAt o jArg r now ttl with
  | some e => if e = 0 then none else some e
  | none => none


/-! ## BaseCache.remember

remember is written purely against the abstract get/set of the cache
contract, so it is modelled parametrically over an arbitrary backend: get
may transform the state (the in-memory backend deletes an expired hit), set
receives the value together with the ttl and jitter arguments remember was
given.  The compute callback is modelled by its outcome, either a rejection
or a resolved optional value, and the model additionally counts how many
times the callback was invoked. -/

structure CacheOps (σ V : Type) where
  get : String → σ → Option V × σ
  set : String → V → Option ℚ → Option JitterArg → σ → σ

/-- BaseCache.remember: return a cached present value without touching the
callback; otherwise run the callback once, propagate its rejection without
writing, return a resolved absent without writing, and set then return a
resolved present value. -/
def rememberRun {σ V ε : Type} (C : CacheOps σ V) (key : String)
    (cb : Except ε (Option V)) (ttl : Option ℚ) (j : Option JitterArg)
    (s : σ) : Except ε (Option V) × σ × Nat :=
  match C.get key s with
  | (some v, s1) => (Except.ok (some v), s1, 0)
  | (none, s1) =>
      match cb with
      | Except.error e => (Except.error e, s1, 1)
      | Except.ok none => (Except.ok none, s1, 1)
      | Except.ok (some v) => (Except.ok (some v), C.set key v ttl j s1, 1)

/-! ## Session (packages/utils/src/lib/server/session.ts)

The session data bag is a JavaScript plain object: a key may be absent, or
present with a defined value, or present with the value undefined (plain
assignment of undefined does not remove the key).  It is modelled as a
function into Option (Option V): none is an absent key, some none a key
present with undefined, some (some v) a key with a defined value.
structuredClone on pure values is the identity.  Methods that do not write
return the session unchanged. -/

structure Session (V : Type) where
  id : String
  data : String → Option (Option V)
  dirty : Bool
  isNew : Bool

/-- Session.check: the key is in the data object and its value is not
undefined. -/
def sessionCheck {V : Type} (s : Session V) (k : String) : Bool × Session V :=
  ((match s.data k with
    | some (some _) => true
    | _ => false), s)

/-- Session.read: property access on the data object, undefined both for an
absent key and for a key holding undefined. -/
def sessionRead {V : Type} (s : Session V) (k : String) :
    Option V × Session V :=
  ((match s.data k with
    | some v => v
    | none => none), s)

/-- Session.write: assign the (possibly undefined) value under the key and
mark the session dirty.  Assignment keeps the key present even when the
value is undefined. -/
def sessionWrite {V : Type} (s : Session V) (k : String) (v : Option V) :
    Session V :=
  { s with data := fun k2 => if k2 = k then some v else s.data k2,
           dirty := true }

/-- Session.delete: remove the key from the data object and mark the
session dirty. -/
def sessionDelete {V : Type} (s : Session V) (k : String) : Session V :=
  { s with data := fun k2 => if k2 = k then none else s.data k2,
           dirty := true }

/-- Session.consume: return what read yields, and (from the finally block)
delete the key. -/
def sessionConsume {V : Type} (s : Session V) (k : String) :
    Option V × Session V :=
  ((sessionRead s k).1, sessionDelete s k)

/-- Session.remember: a defined current value is returned without invoking
the callback; otherwise the callback runs once and, unless it rejected, its
result is written (even an undefined one) before being returned.  The third
component counts callback invocations. -/
def sessionRemember {V ε : Type} (s : Session V) (k : String)
    (cb : Except ε (Option V)) : Except ε (Option V) × Session V × Nat :=
  match (sessionRead s k).1 with
  | some v => (Except.ok (some v), s, 0)
  | none =>
      match cb with
      | Except.error e => (Except.error e, s, 1)
      | Except.ok v => (Except.ok v, sessionWrite s k v, 1)

/-- Session.clear: reset the data object and mark the session dirty. -/
def sessionClear {V : Type} (s : Session V) : Session V :=
  { s with data := fun _ => none, dirty := true }

/-- Session.#persist: a clean session returns at once without any storage
call; a dirty one performs the storage write (its outcome is the second
argument), clearing the dirty and isNew flags on success and swallowing a
failure after logging it.  The Boolean in the result records whether the
storage write was performed; the Except wrapper records whether persist
itself rejected. -/
def sessionPersist {V ε : Type} (s : Session V) (write : Except ε Unit) :
    Except ε (Session V × Bool) :=
  if s.dirty = false then Except.ok (s, false)
  else
    match write with
    | Except.ok _ => Except.ok ({ s with dirty := false, isNew := false }, true)
    | Except.error _ => Except.ok (s, true)

/-! ## Helper lemmas on strings and the association-list store -/

theorem strData_append (a b : String) : (a ++ b).data = a.data ++ b.data := rfl

theorem strAppend_assoc (a b c : String) : a ++ b ++ c = a ++ (b ++ c) := by
  cases a with
  | mk la =>
    cases b with
    | mk lb =>
      cases c with
      | mk lc =>
        show String.mk (la ++ lb ++ lc) = String.mk (la ++ (lb ++ lc))
        rw [List.append_assoc]

theorem strAppend_right_inj {p a b : String} (h : p ++ a = p ++ b) : a = b := by
  cases a with
  | mk la =>
    cases b with
    | mk lb =>
      have h2 : p.data ++ la = p.data ++ lb := by
        have := congrArg String.data h
        simpa [strData_append] using this
      have h3 : la = lb := List.append_cancel_left h2
      rw [h3]

theorem strAppend_ne_self {q : String} (k : String) (hq : q ≠ "") :
    q ++ k ≠ k := by
  intro h
  apply hq
  have hlen := congrArg (fun s => s.data.length) h
  simp only [strData_append, List.length_append] at hlen
  have hq0 : q.data.length = 0 := by omega
  cases q with
  | mk lq =>
    cases lq with
    | nil => rfl
    | cons c cs => simp at hq0

theorem mapGet_mapSet_self {V : Type} (s : Store V) (k : String)
    (w : ValueWrapper V) : mapGet (mapSet s k w) k = some w := by
  induction s with
  | nil => simp [mapSet, mapGet]
  | cons hd tl ih =>
    by_cases h : hd.1 = k
    · cases hd with
      | mk k2 w2 => simp_all [mapSet, mapGet]
    · cases hd with
      | mk k2 w2 =>
        simp only at h
        simp [mapSet, mapGet, h, ih]

theorem mapGet_mapSet_ne {V : Type} (s : Store V) {k k2 : String}
    (w : ValueWrapper V) (h : k2 ≠ k) :
    mapGet (mapSet s k w) k2 = mapGet s k2 := by
  have h4 : ¬(k = k2) := fun he => h (Eq.symm he)
  induction s with
  | nil => simp [mapSet, mapGet, h4]
  | cons hd tl ih =>
    cases hd with
    | mk k3 w3 =>
      by_cases h3 : k3 = k
      · subst h3
        simp [mapSet, mapGet, h4]
      · simp [mapSet, mapGet, h3, ih]

/-! ## Claim theorems -/

/-- C8: for every nonnegative input x and random sample r in the unit
interval, createJitter of the None policy is the identity on x, the Full
policy lands in the closed interval from 0 to x, the Equal policy lands in
the closed interval from half of x to x, a caller-supplied function is
returned unchanged, and an unrecognized policy name falls back to the None
behaviour (identity). -/
theorem C8_createJitter_spec (x r : ℚ) (f : ℚ → ℚ → ℚ) (m : String)
    (hx : 0 ≤ x) (hr0 : 0 ≤ r) (hr1 : r < 1) :
    createJitter (JitterArg.mode "none") r x = x
    ∧ (0 ≤ createJitter (JitterArg.mode "full") r x
        ∧ createJitter (JitterArg.mode "full") r x ≤ x)
    ∧ (x / 2 ≤ createJitter (JitterArg.mode "equal") r x
        ∧ createJitter (JitterArg.mode "equal") r x ≤ x)
    ∧ createJitter (JitterArg.fn f) = f
    ∧ (m ≠ "none" → m ≠ "full" → m ≠ "equal" →
        createJitter (JitterArg.mode m) = jitterNone) := by
  have hfull : createJitter (JitterArg.mode "full") = jitterFull := rfl
  have hequal : createJitter (JitterArg.mode "equal") = jitterEqual := rfl
  have hnone : createJitter (JitterArg.mode "none") = jitterNone := rfl
  have h1r : (0:ℚ) ≤ 1 - r := by linarith
  refine ⟨by rw [hnone]; rfl, ⟨?_, ?_⟩, ⟨?_, ?_⟩, rfl, ?_⟩
  · rw [hfull]
    exact mul_nonneg hr0 hx
  · rw [hfull]
    show r * x ≤ x
    nlinarith [mul_nonneg h1r hx]
  · rw [hequal]
    show x / 2 ≤ (1 + r) * x / 2
    nlinarith [mul_nonneg hr0 hx]
  · rw [hequal]
    show (1 + r) * x / 2 ≤ x
    nlinarith [mul_nonneg h1r hx]
  · intro h1 h2 h3
    simp [createJitter, jitterTable, h1, h2, h3]

/-- Witness for C8 at x = 10, r = 1/2, f the projection, m = "weird": the
hypotheses hold and the Full-policy bound follows by the theorem. -/
theorem C8_createJitter_spec_witness :
    (0:ℚ) ≤ 10 ∧ createJitter (JitterArg.mode "full") (1/2) 10 ≤ 10 := by
  constructor
  · norm_num
  · exact (C8_createJitter_spec 10 (1/2) (fun _ x => x) "weird"
      (by norm_num) (by norm_num) (by norm_num)).2.1.2

/-- Example S3Cache options used in concrete evaluations: a bucket with no
key prefix, no default ttl and no default jitter. -/
def ex3opts : S3Opts := ⟨"bucket", none, none, none⟩

/-- C3 (code bug): S3Cache.set omits the seconds-to-milliseconds conversion.
With no jitter (the None policy, sample irrelevant) and a ttl of 60 seconds
at time 0, the recorded expires-at is 60, not the 60000 milliseconds the
claim (and the base contract, whose ttl is documented in seconds while
expires-at is epoch milliseconds) requires. -/
theorem C3_s3_set_expiry_bug :
    s3ExpiresAt ex3opts (some (JitterArg.mode "none")) 0 0 (some 60) = some 60
    ∧ s3ExpiresAt ex3opts (some (JitterArg.mode "none")) 0 0 (some 60)
        ≠ some 60000 := by
  have h : s3ExpiresAt ex3opts (some (JitterArg.mode "none")) 0 0 (some 60)
      = some (0 + jsRound (jitterNone 0 60)) := by
    simp [s3ExpiresAt, ex3opts, createJitter, jitterTable]
  have h60 : (0 : ℤ) + jsRound (jitterNone 0 60) = 60 := by
    norm_num [jsRound, jitterNone]
  rw [h, h60]
  constructor
  · rfl
  · intro hcontra
    norm_num at hcontra

/-- C6 (code bug): the glob-to-regex translation of S3Cache.clearPattern
first backslash-escapes the asterisk and then rewrites every asterisk into
dot-asterisk, so the glob star becomes a quantified escaped dot: the
pattern a*b matches only the letter a, a run of literal dots, and the
letter b.  The key aXb, matched by the glob semantics the claim states, is
not matched (hence not removed), while a.b still is. -/
theorem C6_s3_clearPattern_bug :
    globMatch "a*b".data "aXb".data = true
    ∧ s3PatternTest "a*b" "aXb" = false
    ∧ s3PatternTest "a*b" "a.b" = true
    ∧ globMatch "a*b".data "ab".data = true
    ∧ s3PatternTest "a*b" "ab" = true := by
  refine ⟨by decide, by decide, by decide, by decide, by decide⟩

/-- Example InMemoryCache options: no key prefix, no default ttl, no default
jitter, no item cap. -/
def exMemOpts : MemOpts := ⟨none, none, none, none⟩

/-- Example store holding one entry under the key k whose expiration time 0
lies in the past once the clock reads 1. -/
def exStore1 : Store ℕ := [("k", ⟨0, some 0⟩)]

/-- C1 (counterexample): with the clock at 1, the entry under k in exStore1
is expired (get reports it absent and deletes it), yet the keys enumeration
still yields k, contradicting the claim that enumeration never yields an
expired key. -/
theorem C1_expired_key_enumerated_counterexample :
    isValid (ValueWrapper.mk (0:ℕ) (some 0)) 1 = false
    ∧ memGet exMemOpts 1 "k" exStore1 = (none, [])
    ∧ memKeys exMemOpts none exStore1 = ["k"] := by
  refine ⟨by decide, by decide, by decide⟩

/-- C1 (amended): in the in-memory backend, get never returns an entry whose
expiration lies strictly in the past and physically deletes it; the keys
enumeration, however, yields every stored key of the namespace regardless of
expiration (expired keys disappear from it only once get or the asynchronous
housekeeping has removed them). -/
theorem C1_expired_entry_get_absent {V : Type} (o : MemOpts) (now : ℚ)
    (k : String) (v : V) (e : ℚ) (s : Store V)
    (hfound : mapGet s (memKey o k) = some ⟨v, some e⟩) (hexp : e < now) :
    memGet o now k s = (none, mapDelete s (memKey o k)) := by
  unfold memGet
  rw [hfound]
  have hval : isValid (⟨v, some e⟩ : ValueWrapper V) now = false := by
    simp only [isValid, decide_eq_false_iff_not]
    exact not_le.mpr hexp
  simp [hval]

/-- Witness for C1 at the concrete expired store. -/
theorem C1_expired_entry_get_absent_witness :
    memGet exMemOpts 1 "k" exStore1
      = (none, mapDelete exStore1 (memKey exMemOpts "k")) :=
  C1_expired_entry_get_absent exMemOpts 1 "k" 0 0 exStore1 (by decide)
    (by norm_num)

/-- C10: in-memory expiration is boundary-inclusive: an entry whose expire
timestamp equals the current clock reading is still valid (get returns the
value and leaves the store untouched), and only an expire timestamp
strictly below the current time makes get treat the entry as expired and
delete it. -/
theorem C10_expire_boundary_inclusive {V : Type} (o : MemOpts) (now : ℚ)
    (k : String) (v : V) (e : ℚ) (s : Store V) :
    (mapGet s (memKey o k) = some ⟨v, some now⟩ →
        memGet o now k s = (some v, s))
    ∧ (mapGet s (memKey o k) = some ⟨v, some e⟩ → e < now →
        memGet o now k s = (none, mapDelete s (memKey o k))) := by
  constructor
  · intro hfound
    unfold memGet
    rw [hfound]
    have hval : isValid (⟨v, some now⟩ : ValueWrapper V) now = true := by
      simp [isValid]
    simp [hval]
  · intro hfound hexp
    unfold memGet
    rw [hfound]
    have hval : isValid (⟨v, some e⟩ : ValueWrapper V) now = false := by
      simp only [isValid, decide_eq_false_iff_not]
      exact not_le.mpr hexp
    simp [hval]

/-- Example store for the boundary case: the entry under k expires exactly
at time 5. -/
def exStore10 : Store ℕ := [("k", ⟨7, some 5⟩)]

/-- Witness for C10: at the exact expiration instant the value is still
returned and nothing is removed. -/
theorem C10_expire_boundary_inclusive_witness :
    memGet exMemOpts 5 "k" exStore10 = (some 7, exStore10) :=
  (C10_expire_boundary_inclusive exMemOpts 5 "k" 7 5 exStore10).1 (by decide)

/-- C2: BaseCache.remember, over any backend: a present cached value is
returned with the callback never invoked; on a cache miss the callback runs
exactly once, a rejection propagates without a write, a resolved absent is
returned without a write, and a resolved present value is written through
set with the given ttl and jitter before being returned. -/
theorem C2_remember_contract {σ V ε : Type} (C : CacheOps σ V) (key : String)
    (cb : Except ε (Option V)) (ttl : Option ℚ) (j : Option JitterArg)
    (s : σ) :
    (∀ v s1, C.get key s = (some v, s1) →
        rememberRun C key cb ttl j s = (Except.ok (some v), s1, 0))
    ∧ (∀ s1, C.get key s = (none, s1) →
        (∀ e, cb = Except.error e →
            rememberRun C key cb ttl j s = (Except.error e, s1, 1))
        ∧ (cb = Except.ok none →
            rememberRun C key cb ttl j s = (Except.ok none, s1, 1))
        ∧ (∀ v, cb = Except.ok (some v) →
            rememberRun C key cb ttl j s
              = (Except.ok (some v), C.set key v ttl j s1, 1))) := by
  constructor
  · intro v s1 h
    unfold rememberRun
    rw [h]
  · intro s1 h
    refine ⟨?_, ?_, ?_⟩
    · intro e hcb
      unfold rememberRun
      rw [h, hcb]
    · intro hcb
      unfold rememberRun
      rw [h, hcb]
    · intro v hcb
      unfold rememberRun
      rw [h, hcb]

/-- A one-cell backend used to instantiate the remember contract. -/
def exCell : CacheOps (Option ℕ) ℕ where
  get _ s := (s, s)
  set _ v _ _ _ := some v

/-- Witness for C2: on an empty cell, remember with a callback resolving to
5 invokes it once, writes 5 and returns it. -/
theorem C2_remember_contract_witness :
    rememberRun exCell "k" (Except.ok (some 5) : Except Unit (Option ℕ))
      none none none = (Except.ok (some 5), some 5, 1) :=
  (((C2_remember_contract exCell "k"
      (Except.ok (some 5) : Except Unit (Option ℕ)) none none none).2
    none rfl).2.2) 5 rfl

/-- Example store for the child-view claims: the parent holds 0 under the
plain key k. -/
def exStore7 : Store ℕ := [("k", ⟨0, none⟩)]

/-- C7 (counterexample): with the empty child prefix, the child composes to
the very same fully-qualified keys as the parent, so a set through the
child of key k overwrites the parent's value under the plain key k,
contradicting the claim as universally stated over all child prefixes. -/
theorem C7_empty_child_pfx_counterexample :
    (memGet exMemOpts 0 "k" exStore7).1 = some 0
    ∧ (memGet exMemOpts 0 "k"
        (memSet (memChild exMemOpts "") none 0 0 "k" 1 none exStore7)).1
      = some 1 := by
  refine ⟨by decide, by decide⟩

/-- C7 (amended, child prefix nonempty): the child cache is a view over the
same store: a set through the child of key k is visible through the parent
under the composed key, leaves the parent's entry under the plain key k
untouched, and conversely a set through the parent under the composed key
is visible through the child under k.  The validity hypothesis states that
the written entry has not yet expired when it is read back. -/
theorem C7_child_is_view {V : Type} (o : MemOpts) (q k : String) (v : V)
    (jArg : Option JitterArg) (r now : ℚ) (ttl : Option ℚ) (s : Store V)
    (hq : q ≠ "")
    (hv : isValid (⟨v, memExpire o jArg r now ttl⟩ : ValueWrapper V) now
      = true) :
    memGet o now (q ++ k) (memSet (memChild o q) jArg r now k v ttl s)
      = (some v, memSet (memChild o q) jArg r now k v ttl s)
    ∧ mapGet (memSet (memChild o q) jArg r now k v ttl s) (memKey o k)
        = mapGet s (memKey o k)
    ∧ memGet (memChild o q) now k (memSet o jArg r now (q ++ k) v ttl s)
      = (some v, memSet o jArg r now (q ++ k) v ttl s) := by
  have hkey : memKey (memChild o q) k = memKey o (q ++ k) := by
    show memKey o q ++ k = o.keyPfx.getD "" ++ (q ++ k)
    show o.keyPfx.getD "" ++ q ++ k = o.keyPfx.getD "" ++ (q ++ k)
    exact strAppend_assoc _ q k
  have hexp : memExpire (memChild o q) jArg r now ttl
      = memExpire o jArg r now ttl := rfl
  have hne : memKey o k ≠ memKey (memChild o q) k := by
    rw [hkey]
    intro hcontra
    exact strAppend_ne_self k hq (strAppend_right_inj hcontra).symm
  refine ⟨?_, ?_, ?_⟩
  · unfold memGet
    rw [show memSet (memChild o q) jArg r now k v ttl s
          = mapSet s (memKey o (q ++ k)) ⟨v, memExpire o jArg r now ttl⟩ by
        unfold memSet
        rw [hkey, hexp]]
    rw [mapGet_mapSet_self]
    simp [hv]
  · unfold memSet
    rw [hexp]
    exact mapGet_mapSet_ne s _ (hkey ▸ hne)
  · unfold memGet
    rw [show memSet o jArg r now (q ++ k) v ttl s
          = mapSet s (memKey (memChild o q) k) ⟨v, memExpire o jArg r now ttl⟩
        by
        unfold memSet
        rw [hkey]]
    rw [mapGet_mapSet_self]
    simp [hv]

/-- Witness for C7 at a nonempty child prefix on the empty store. -/
theorem C7_child_is_view_witness :
    memGet exMemOpts 0 ("q:" ++ "k")
        (memSet (memChild exMemOpts "q:") none 0 0 "k" 1 none ([] : Store ℕ))
      = (some 1,
          memSet (memChild exMemOpts "q:") none 0 0 "k" 1 none
            ([] : Store ℕ)) :=
  (C7_child_is_view exMemOpts "q:" "k" 1 none 0 0 none [] (by decide)
    (by decide)).1

/-- C4: session persistence performs the storage write exactly when the
session is dirty, and it resolves normally in every case — in particular a
storage write failure is swallowed rather than propagated to the caller. -/
theorem C4_persist_dirty_gated {V ε : Type} (s : Session V)
    (w : Except ε Unit) :
    ∃ s2, sessionPersist s w = Except.ok (s2, s.dirty) := by
  unfold sessionPersist
  cases hd : s.dirty with
  | false =>
    refine ⟨s, ?_⟩
    simp
  | true =>
    cases w with
    | ok u =>
      refine ⟨{ s with dirty := false, isNew := false }, ?_⟩
      simp
    | error e =>
      refine ⟨s, ?_⟩
      simp

/-- Example session for the dirty-flag claims: restored (not dirty, not
new) with one value stored under the key flash. -/
def exSession5 : Session ℕ :=
  ⟨"sid", fun k => if k = "flash" then some (some 1) else none, false, false⟩

/-- C5 (counterexample): consume on a clean session marks it dirty (consume
deletes the key in its finally block), contradicting the claim that consume
leaves the dirty flag unchanged. -/
theorem C5_consume_marks_dirty_counterexample :
    exSession5.dirty = false
    ∧ (sessionConsume exSession5 "flash").2.dirty = true := by
  refine ⟨rfl, rfl⟩

/-- C5 (amended): read and check leave the session entirely unchanged;
consume always marks the session dirty because it deletes the key, even on
a clean session; and remember with a defined current value returns it
without invoking its factory and without touching the session. -/
theorem C5_read_check_preserve_dirty {V ε : Type} (s : Session V)
    (k : String) (cb : Except ε (Option V)) :
    (sessionRead s k).2 = s
    ∧ (sessionCheck s k).2 = s
    ∧ (sessionConsume s k).2.dirty = true
    ∧ (∀ v, (sessionRead s k).1 = some v →
        sessionRemember s k cb = (Except.ok (some v), s, 0)) := by
  refine ⟨rfl, rfl, rfl, ?_⟩
  intro v h
  unfold sessionRemember
  rw [h]

/-- Witness for C5: on the example session, remember under the key flash
returns the stored 1 with zero factory invocations. -/
theorem C5_read_check_preserve_dirty_witness :
    sessionRemember exSession5 "flash"
        (Except.ok none : Except Unit (Option ℕ))
      = (Except.ok (some 1), exSession5, 0) :=
  (C5_read_check_preserve_dirty exSession5 "flash"
      (Except.ok none : Except Unit (Option ℕ))).2.2.2 1 (by decide)

/-- Example empty session for the sparseness claims. -/
def exSession9 : Session ℕ := ⟨"sid", fun _ => none, false, false⟩

/-- C9 (counterexample): writing the undefined value under k leaves the key
present in the data object (holding undefined), contradicting the claim
that write of undefined removes the key. -/
theorem C9_write_undefined_keeps_key_counterexample :
    (sessionWrite exSession9 "k" (none : Option ℕ)).data "k" = some none := by
  decide

/-- C9 (amended): the session data object may map a present key to the
undefined value: write of undefined keeps the key present holding
undefined; such a key is reported unset by check and read yields undefined
for it; only delete (and clear) actually remove keys. -/
theorem C9_write_undefined_keeps_key {V : Type} (s : Session V)
    (k : String) :
    (sessionWrite s k none).data k = some none
    ∧ (sessionCheck (sessionWrite s k none) k).1 = false
    ∧ (sessionRead (sessionWrite s k none) k).1 = none
    ∧ (sessionDelete s k).data k = none := by
  refine ⟨?_, ?_, ?_, ?_⟩
  · simp [sessionWrite]
  · simp [sessionCheck, sessionWrite]
  · simp [sessionRead, sessionWrite]
  · simp [sessionDelete]
